import Mathlib

/-!
# Exercise tracker (`index.js`): request handlers over a document store

A shallow embedding of the seven route handlers of `index.js`.

* The two Mongoose collections are lists in insertion order, the order a
  collection scan returns documents in.
* `ObjectId`s come from the driver's generator, which never hands out the same
  id twice; the generator is modelled by a counter kept next to the collections.
* The path parameter `:_id` is the raw string of the URL. `findById` casts it
  to an `ObjectId`; the exercise filter compares it, as it is, with the stored
  `userId` strings. The cast and the rendering of an id as a string are
  functions of the driver, taken as parameters (`Runtime`), as is the rendering
  `new Date(s).toDateString()`.
* A value of the request body is a `Value`: absent, `null`, a boolean, an
  integer number of magnitude below `2 ^ 53`, or a string. Arrays, objects and
  numbers with a fraction are not values of the model. A value of the query
  string is a string or absent.
* A number computed by `parseInt` is a double with an integer value, or an
  infinity: `Number`. `NaN` is the `none` of `Option Number`; `-0` is `0`.
* The clock and the failures of the store belong to the environment `Env` of a
  request. A store that refuses a command, for whatever reason (a limit outside
  the range of its integers, say), is a store that rejects the operation.
* A payload is the value handed to `res.json`, before it is serialised.
-/

namespace ExerciseTracker

/-! ## Data model -/

/-- Document id, `_id`. -/
abbrev ObjectId := Nat

/-- A JavaScript number with an integer value, or an infinity. -/
inductive Number where
  | finite (value : Int)
  | infinity (negative : Bool)
deriving DecidableEq

/-- A value of a field of the request body. -/
inductive Value where
  /-- The field is absent. -/
  | undefined
  | null
  | bool (b : Bool)
  /-- An integer number, sign and magnitude; `-0` has the sign and magnitude 0. -/
  | number (negative : Bool) (magnitude : Fin 9007199254740992)
  | string (s : String)
deriving DecidableEq

/-- A document of `userSchema`; `username` is `undefined`, `null` or a string. -/
structure User where
  _id : ObjectId
  username : Value
deriving DecidableEq

/-- A document of `exerciseSchema`; `userId` is the string form of the owner's
`_id`. -/
structure Exercise where
  _id : ObjectId
  userId : String
  username : Value
  description : String
  duration : Number
  date : String
deriving DecidableEq

/-- The two collections and the counter of the id generator. -/
structure Store where
  users : List User
  exercises : List Exercise
  nextId : ObjectId
deriving DecidableEq

/-- The store before any request. -/
def Store.empty : Store := { users := [], exercises := [], nextId := 0 }

/-- The library functions the handlers rely on, the same for every request. -/
structure Runtime where
  /-- The function `s ↦ new Date(s).toDateString()`. -/
  toDateString : String → String
  /-- The cast of a path parameter to an `ObjectId`; `none` when the cast
  throws. -/
  castObjectId : String → Option ObjectId
  /-- The string form of an `ObjectId`, which a `String` path of a schema
  stores. -/
  toHexString : ObjectId → String

/-- What a request takes from outside the program. -/
structure Env where
  /-- The value of `new Date().toISOString().substring(0, 10)`. -/
  today : String
  /-- Whether the `k`-th store operation of the request is rejected by the store. -/
  fault : Nat → Bool
  /-- Whether the page of `GET /` has gone out by the time an index
  synchronisation is rejected. -/
  pageSent : Bool

/-- An entry of `log` in the answer of the log route. -/
structure LogEntry where
  description : String
  duration : Number
  date : String
deriving DecidableEq

/-- The payloads the handlers send. -/
inductive Body where
  /-- The object `{ message }`. -/
  | message (message : String)
  /-- The object `{ message, result }` of the two delete routes. -/
  | deleted (message : String) (deletedCount : Nat)
  /-- The array `res.json(users)`. -/
  | users (users : List User)
  /-- The object `{ username, _id }`. -/
  | user (username : Value) (_id : ObjectId)
  /-- The object `{ username, description, duration, date, _id }`. -/
  | exercise (username : Value) (description : String) (duration : Number)
      (date : String) (_id : ObjectId)
  /-- The object `{ _id, username, count, log }`. -/
  | log (_id : ObjectId) (username : Value) (count : Nat) (log : List LogEntry)
  /-- The file sent by `res.sendFile`. -/
  | file (path : String)
deriving DecidableEq

/-- An HTTP answer: status code and payload. -/
structure Response where
  status : Nat
  body : Body
deriving DecidableEq

/-! ## JavaScript primitives used by the handlers -/

/-- Truthiness: `undefined`, `null`, `false`, `0`, `-0` and `""` are falsy. -/
def truthy : Value → Bool
  | .undefined => false
  | .null => false
  | .bool b => b
  | .number _ magnitude => magnitude.val != 0
  | .string s => s != ""

/-- The conversion `ToString` of a value. -/
def jsToString : Value → String
  | .undefined => "undefined"
  | .null => "null"
  | .bool b => if b then "true" else "false"
  | .number negative magnitude =>
    if negative && magnitude.val != 0 then "-" ++ toString magnitude.val
    else toString magnitude.val
  | .string s => s

/-- A value of the query string as a value. -/
def ofQuery : Option String → Value
  | none => .undefined
  | some s => .string s

/-- The expression `v || d` for a value of the query string. -/
def orElse (v : Option String) (d : String) : String :=
  match v with
  | none => d
  | some x => if x = "" then d else x

/-- The white space `parseInt` skips: `WhiteSpace` and `LineTerminator`. -/
def isWhiteSpace (c : Char) : Bool :=
  let n := c.toNat
  n = 9 || n = 10 || n = 11 || n = 12 || n = 13 || n = 32 || n = 160 || n = 5760
    || (8192 ≤ n && n ≤ 8202) || n = 8232 || n = 8233 || n = 8239 || n = 8287
    || n = 12288 || n = 65279

/-- The value of a character as a digit of the given radix (10 or 16). -/
def digitValue (radix : Nat) (c : Char) : Option Nat :=
  let n := c.toNat
  if 48 ≤ n ∧ n ≤ 57 then some (n - 48)
  else if radix = 16 ∧ 97 ≤ n ∧ n ≤ 102 then some (n - 87)
  else if radix = 16 ∧ 65 ≤ n ∧ n ≤ 70 then some (n - 55)
  else none

/-- Reads the longest run of digits at the head of the input; `acc` is `none`
until a digit has been read. -/
def readDigits (radix : Nat) : Option Nat → List Char → Option Nat
  | acc, [] => acc
  | acc, c :: cs =>
    match digitValue radix c with
    | none => acc
    | some d => readDigits radix (some (acc.getD 0 * radix + d)) cs

/-- The digits after the sign: a `0x` or `0X` head selects radix 16. -/
def parseUnsigned : List Char → Option Nat
  | '0' :: 'x' :: cs => readDigits 16 none cs
  | '0' :: 'X' :: cs => readDigits 16 none cs
  | cs => readDigits 10 none cs

/-- How often `n` is halved until it is below `2 ^ 53`; `fuel` bounds the
count, and `n` itself is fuel enough. -/
def halvings : Nat → Nat → Nat
  | 0, _ => 0
  | fuel + 1, n => if n < 9007199254740992 then 0 else halvings fuel (n / 2) + 1

/-- The double nearest to a natural number, ties to the even significand;
`none` when that is beyond the largest double, where the number is
`Infinity`. -/
def roundToDouble (n : Nat) : Option Nat :=
  if n < 9007199254740992 then some n
  else
    let shift := halvings n n
    let q := n / 2 ^ shift
    let r := n % 2 ^ shift
    let half := 2 ^ (shift - 1)
    let q1 := if half < r ∨ (r = half ∧ q % 2 = 1) then q + 1 else q
    if q1 * 2 ^ shift < 2 ^ 1024 then some (q1 * 2 ^ shift) else none

/-- The number for a sign and the integer the digits denote. -/
def toNumber (negative : Bool) (n : Nat) : Number :=
  match roundToDouble n with
  | none => .infinity negative
  | some v => .finite (if negative then -(v : Int) else (v : Int))

/-- The input after the white space, with its sign. -/
def parseSigned : List Char → Option Number
  | '-' :: cs => (parseUnsigned cs).map (toNumber true)
  | '+' :: cs => (parseUnsigned cs).map (toNumber false)
  | cs => (parseUnsigned cs).map (toNumber false)

/-- The builtin `parseInt(v)` with no radix; `none` stands for `NaN`. -/
def parseInt (v : Value) : Option Number :=
  parseSigned ((jsToString v).data.dropWhile isWhiteSpace)

/-- The expression `parseInt(v) || 0`: `NaN` and `0` are falsy. -/
def parseIntOrZero (v : Value) : Number :=
  (parseInt v).getD (.finite 0)

/-! ## The store: the Mongoose operations the handlers call -/

/-- Strict lexicographic order on code points, the order of the store's binary
string comparison. -/
def lexLt : List Char → List Char → Bool
  | [], [] => false
  | [], _ :: _ => true
  | _ :: _, [] => false
  | a :: as, b :: bs =>
    if a.toNat < b.toNat then true
    else if b.toNat < a.toNat then false
    else lexLt as bs

/-- The operator `$gte` on two strings: `field ≥ bound`. -/
def gte (field bound : String) : Bool := !lexLt field.data bound.data

/-- The operator `$lte` on two strings: `field ≤ bound`. -/
def lte (field bound : String) : Bool := !lexLt bound.data field.data

/-- The filter `{ userId: userId, date: { $gte: from, $lte: to } }`; `userId`
is the path parameter as it came. -/
structure Query where
  userId : String
  fromDate : String
  toDate : String

/-- Whether a document satisfies the filter. -/
def Query.matches (q : Query) (e : Exercise) : Bool :=
  e.userId == q.userId && gte e.date q.fromDate && lte e.date q.toDate

/-- The lookup of `User.findById` once the id is cast: the stored user of that
id, `null` when there is none. -/
def findById : List User → ObjectId → Option User
  | [], _ => none
  | u :: us, id => if u._id = id then some u else findById us id

/-- A collection scan that stops once `budget` documents have been returned;
`none` is a scan without a budget. -/
def scan (q : Query) : Option Nat → List Exercise → List Exercise
  | _, [] => []
  | some 0, _ :: _ => []
  | none, e :: es => if q.matches e then e :: scan q none es else scan q none es
  | some (n + 1), e :: es =>
    if q.matches e then e :: scan q (some n) es else scan q (some (n + 1)) es

/-- The cursor option `.limit(n)`: 0 is no limit, a negative number is the
limit of its absolute value, an infinite limit bounds nothing. -/
def budget : Number → Option Nat
  | .finite limit => if limit = 0 then none else some limit.natAbs
  | .infinity _ => none

/-- The query `Exercise.find(query).select(...).limit(limit)`. -/
def find (exercises : List Exercise) (q : Query) (limit : Number) : List Exercise :=
  scan q (budget limit) exercises

/-- The cast Mongoose applies to a value on a `String` path: `undefined` and
`null` stay, every other value becomes its string form. -/
def castString : Value → Value
  | .undefined => .undefined
  | .null => .null
  | v => .string (jsToString v)

/-- The `required: true` validator of a `String` path, after the cast: the
value is a string and is not empty. -/
def required (v : Value) : Option String :=
  match castString v with
  | .string x => if x = "" then none else some x
  | _ => none

/-! ## The handlers

Each `try` block is a function into `Except`: `.error` is a thrown exception or
a rejected promise and carries the store as it is at that moment, `.ok` the
store and the payload of `res.json`. The handler adds what `catch` does. -/

/-- The outcome of a `try` block. -/
abbrev Try := Except Store (Store × Body)

/-- The callback of `User.deleteMany({}, ...)` up to its first `res.json`:
route `GET /api/users/delete`. -/
def getUsersDeleteTry (env : Env) (s : Store) : Try :=
  if env.fault 0 then .error s
  else .ok ({ s with users := [] }, .deleted "All users have been deleted!" s.users.length)

/-- Route `GET /api/users/delete`. -/
def getUsersDelete (env : Env) (s : Store) : Store × Response :=
  match getUsersDeleteTry env s with
  | .ok (s1, body) => (s1, { status := 200, body := body })
  | .error s1 => (s1, { status := 200, body := .message "Deleting all users failed!" })

/-- The callback of `Exercise.deleteMany({}, ...)` up to its first `res.json`:
route `GET /api/exercises/delete`. -/
def getExercisesDeleteTry (env : Env) (s : Store) : Try :=
  if env.fault 0 then .error s
  else .ok ({ s with exercises := [] },
    .deleted "All exercises have been deleted!" s.exercises.length)

/-- Route `GET /api/exercises/delete`. -/
def getExercisesDelete (env : Env) (s : Store) : Store × Response :=
  match getExercisesDeleteTry env s with
  | .ok (s1, body) => (s1, { status := 200, body := body })
  | .error s1 => (s1, { status := 200, body := .message "Deleting all exercises failed!" })

/-- The two awaited calls of route `GET /`, `User.syncIndexes()` and
`Exercise.syncIndexes()`, which follow `res.sendFile`: `.error` when one of
them is rejected. -/
def getRootTry (env : Env) (s : Store) : Try :=
  if env.fault 0 then .error s
  else if env.fault 1 then .error s
  else .ok (s, .file "/views/index.html")

/-- Route `GET /`. The handler has no `catch`: a rejected synchronisation ends
the process, and the client has the page only if it had gone out before;
`none` is no answer. -/
def getRoot (env : Env) (s : Store) : Store × Option Response :=
  match getRootTry env s with
  | .ok (s1, body) => (s1, some { status := 200, body := body })
  | .error s1 =>
    (s1, if env.pageSent then some { status := 200, body := .file "/views/index.html" }
      else none)

/-- The `try` block of route `GET /api/users`. -/
def getUsersTry (env : Env) (s : Store) : Try :=
  if env.fault 0 then .error s
  else if s.users.length = 0 then .ok (s, .message "There are no users in the database!")
  else .ok (s, .users s.users)

/-- Route `GET /api/users`. -/
def getUsers (env : Env) (s : Store) : Store × Response :=
  match getUsersTry env s with
  | .ok (s1, body) => (s1, { status := 200, body := body })
  | .error s1 => (s1, { status := 200, body := .message "Getting all users failed!" })

/-- The `try` block of route `POST /api/users`: `new User` draws the id and
casts the username, `save` inserts the document. -/
def postUsersTry (env : Env) (s : Store) (inputUsername : Value) : Try :=
  let newUser : User := { _id := s.nextId, username := castString inputUsername }
  let s1 : Store := { s with nextId := s.nextId + 1 }
  if env.fault 0 then .error s1
  else .ok ({ s1 with users := s.users ++ [newUser] }, .user newUser.username newUser._id)

/-- Route `POST /api/users`. -/
def postUsers (env : Env) (s : Store) (inputUsername : Value) : Store × Response :=
  match postUsersTry env s inputUsername with
  | .ok (s1, body) => (s1, { status := 200, body := body })
  | .error s1 => (s1, { status := 200, body := .message "User creation failed!" })

/-- The statement `if (!date) { date = today }`, followed by the cast of the
`String` path `date`. -/
def dateOrToday (env : Env) (date : Value) : String :=
  if truthy date then jsToString date else env.today

/-- The `try` block of route `POST /api/users/:_id/exercises`, entered with the
date already defaulted. `findById` throws when the path has no cast; reading
`userInDb._id` throws when the lookup gave `null`; `new Exercise` draws the id;
`save` validates and then inserts. -/
def postExercisesTry (rt : Runtime) (env : Env) (s : Store) (userId : String)
    (description duration : Value) (date : String) : Try :=
  match rt.castObjectId userId with
  | none => .error s
  | some id =>
    if env.fault 0 then .error s
    else
      match findById s.users id with
      | none => .error s
      | some userInDb =>
        let s1 : Store := { s with nextId := s.nextId + 1 }
        match required description, parseInt duration with
        | some d, some n =>
          let exercise : Exercise :=
            { _id := s.nextId, userId := rt.toHexString userInDb._id,
              username := userInDb.username, description := d, duration := n, date := date }
          if env.fault 1 then .error s1
          else .ok ({ s1 with exercises := s.exercises ++ [exercise] },
            .exercise userInDb.username exercise.description exercise.duration
              (rt.toDateString exercise.date) userInDb._id)
        | _, _ => .error s1

/-- Route `POST /api/users/:_id/exercises`. -/
def postExercises (rt : Runtime) (env : Env) (s : Store) (userId : String)
    (description duration date : Value) : Store × Response :=
  match postExercisesTry rt env s userId description duration (dateOrToday env date) with
  | .ok (s1, body) => (s1, { status := 200, body := body })
  | .error s1 => (s1, { status := 200, body := .message "Exercise creation failed!" })

/-- The `try` block of route `GET /api/users/:_id/logs`, entered with the three
query values already defaulted. `findById` throws when the path has no cast;
the filter holds the path as it came; reading `user._id` throws when the lookup
gave `null`. -/
def getLogsTry (rt : Runtime) (env : Env) (s : Store) (userId : String)
    (fromDate toDate : String) (limit : Number) : Try :=
  match rt.castObjectId userId with
  | none => .error s
  | some id =>
    if env.fault 0 then .error s
    else
      let user := findById s.users id
      let query : Query := { userId := userId, fromDate := fromDate, toDate := toDate }
      if env.fault 1 then .error s
      else
        let exercises := find s.exercises query limit
        let parsedDatesLog := exercises.map fun exercise =>
          ({ description := exercise.description, duration := exercise.duration,
             date := rt.toDateString exercise.date } : LogEntry)
        match user with
        | none => .error s
        | some user =>
          .ok (s, .log user._id user.username parsedDatesLog.length parsedDatesLog)

/-- Route `GET /api/users/:_id/logs`. -/
def getLogs (rt : Runtime) (env : Env) (s : Store) (userId : String)
    (fromQuery toQuery limitQuery : Option String) : Store × Response :=
  match getLogsTry rt env s userId (orElse fromQuery "1970-01-01") (orElse toQuery env.today)
      (parseIntOrZero (ofQuery limitQuery)) with
  | .ok (s1, body) => (s1, { status := 200, body := body })
  | .error s1 =>
    (s1, { status := 500, body := .message "Error getting the user's exercise log." })

/-- A request to one of the seven routes. -/
inductive Request where
  | getUsersDelete
  | getExercisesDelete
  | getRoot
  | getUsers
  | postUsers (username : Value)
  | postExercises (userId : String) (description duration date : Value)
  | getLogs (userId : String) (fromQuery toQuery limitQuery : Option String)
deriving DecidableEq

/-- The message the `catch` block (the `err` branch) of a route sends; the
handler of `GET /` has none. -/
def catchMessage : Request → String
  | .getUsersDelete => "Deleting all users failed!"
  | .getExercisesDelete => "Deleting all exercises failed!"
  | .getRoot => ""
  | .getUsers => "Getting all users failed!"
  | .postUsers _ => "User creation failed!"
  | .postExercises _ _ _ _ => "Exercise creation failed!"
  | .getLogs _ _ _ _ => "Error getting the user's exercise log."

/-- The outcome of the part of the handler of a request that can fail. -/
def attempt (rt : Runtime) (env : Env) (s : Store) : Request → Try
  | .getUsersDelete => getUsersDeleteTry env s
  | .getExercisesDelete => getExercisesDeleteTry env s
  | .getRoot => getRootTry env s
  | .getUsers => getUsersTry env s
  | .postUsers username => postUsersTry env s username
  | .postExercises userId description duration date =>
    postExercisesTry rt env s userId description duration (dateOrToday env date)
  | .getLogs userId fromQuery toQuery limitQuery =>
    getLogsTry rt env s userId (orElse fromQuery "1970-01-01") (orElse toQuery env.today)
      (parseIntOrZero (ofQuery limitQuery))

/-- The application: routes a request to its handler; `none` is no answer. -/
def handle (rt : Runtime) (env : Env) (s : Store) : Request → Store × Option Response
  | .getUsersDelete => ((getUsersDelete env s).1, some (getUsersDelete env s).2)
  | .getExercisesDelete => ((getExercisesDelete env s).1, some (getExercisesDelete env s).2)
  | .getRoot => getRoot env s
  | .getUsers => ((getUsers env s).1, some (getUsers env s).2)
  | .postUsers username => ((postUsers env s username).1, some (postUsers env s username).2)
  | .postExercises userId description duration date =>
    ((postExercises rt env s userId description duration date).1,
      some (postExercises rt env s userId description duration date).2)
  | .getLogs userId fromQuery toQuery limitQuery =>
    ((getLogs rt env s userId fromQuery toQuery limitQuery).1,
      some (getLogs rt env s userId fromQuery toQuery limitQuery).2)

/-! ## Notions the properties are stated with -/

/-- The store answers every operation of the request. -/
def Env.storeUp (env : Env) : Prop := ∀ k, env.fault k = false

/-- Whether the request goes to the log route. -/
def Request.isGetLogs : Request → Bool
  | .getLogs _ _ _ _ => true
  | _ => false

/-- What the id generator and the unique index on `_id` guarantee: every
stored id was handed out before, and no two users share an id. -/
def WF (s : Store) : Prop :=
  (∀ u ∈ s.users, u._id < s.nextId) ∧ (∀ e ∈ s.exercises, e._id < s.nextId) ∧
    (s.users.map fun u => u._id).Nodup

/-- The stored user a path parameter resolves to: the path has a cast and a
stored user has that id. -/
def resolve (rt : Runtime) (users : List User) (path : String) : Option User :=
  match rt.castObjectId path with
  | none => none
  | some id => findById users id

/-- The stores reachable from the empty store through requests that satisfy
`allowed`, each in an environment of its own. -/
inductive ReachableBy (rt : Runtime) (allowed : Env → Request → Prop) : Store → Prop where
  | empty : ReachableBy rt allowed Store.empty
  | step {s : Store} (env : Env) (r : Request) :
      ReachableBy rt allowed s → allowed env r → ReachableBy rt allowed (handle rt env s r).1

/-- The stores reachable from the empty store through any requests. -/
def Reachable (rt : Runtime) (s : Store) : Prop := ReachableBy rt (fun _ _ => True) s

/-- The projection of a stored exercise to `{ description, duration, date }`,
the date rendered. -/
def project (rt : Runtime) (e : Exercise) : LogEntry :=
  { description := e.description, duration := e.duration, date := rt.toDateString e.date }

/-- A decimal digit. -/
def isDigit (c : Char) : Bool := 48 ≤ c.toNat && c.toNat ≤ 57

/-- The value of a decimal digit. -/
def digit (c : Char) : Nat := c.toNat - 48

/-- Leap years of the Gregorian calendar. -/
def isLeapYear (y : Nat) : Bool := (y % 4 = 0 && y % 100 != 0) || y % 400 = 0

/-- The number of days of a month. -/
def daysInMonth (y m : Nat) : Nat :=
  if m = 2 then (if isLeapYear y then 29 else 28)
  else if m = 4 ∨ m = 6 ∨ m = 9 ∨ m = 11 then 30
  else 31

/-- The calendar date `(year, month, day)` a string of the form `YYYY-MM-DD`
names, when it names one. -/
def calendarDate (s : String) : Option (Nat × Nat × Nat) :=
  match s.data with
  | [y1, y2, y3, y4, h1, m1, m2, h2, d1, d2] =>
    if isDigit y1 && isDigit y2 && isDigit y3 && isDigit y4 && h1 = '-' && isDigit m1
        && isDigit m2 && h2 = '-' && isDigit d1 && isDigit d2 then
      let y := digit y1 * 1000 + digit y2 * 100 + digit y3 * 10 + digit y4
      let m := digit m1 * 10 + digit m2
      let d := digit d1 * 10 + digit d2
      if 1 ≤ m ∧ m ≤ 12 ∧ 1 ≤ d ∧ d ≤ daysInMonth y m then some (y, m, d) else none
    else none
  | _ => none

/-- A valid ISO `YYYY-MM-DD` string. -/
def isIsoDate (s : String) : Bool := (calendarDate s).isSome

/-- Chronological order on `(year, month, day)`: `a` is not after `b`. -/
def notAfter (a b : Nat × Nat × Nat) : Bool :=
  a.1 < b.1 || (a.1 = b.1 && (a.2.1 < b.2.1 || (a.2.1 = b.2.1 && a.2.2 ≤ b.2.2)))

/-- Chronological order on the dates two strings name; a string that names no
date is in no such relation. -/
def chronoLe (a b : String) : Bool :=
  match calendarDate a, calendarDate b with
  | some x, some y => notAfter x y
  | _, _ => false

/-- A request whose body carries no date, a falsy one (the empty string, say)
or a valid ISO date, at a moment whose UTC date is a valid ISO date. -/
def isoRequest (env : Env) : Request → Prop
  | .postExercises _ _ _ date =>
    isIsoDate env.today = true ∧
      (truthy date = false ∨ ∃ d, date = .string d ∧ isIsoDate d = true)
  | _ => True

/-! ## Sample runtime, environments and stores -/

/-- The value of a string of hexadecimal digits of either case. -/
def hexValue : Nat → List Char → Option Nat
  | acc, [] => some acc
  | acc, c :: cs =>
    match digitValue 16 c with
    | none => none
    | some d => hexValue (acc * 16 + d) cs

/-- The cast of a string of 24 hexadecimal digits, of either case, to the id
it denotes; no other string is cast. -/
def hexCast (s : String) : Option ObjectId :=
  if s.data.length = 24 then hexValue 0 s.data else none

/-- The lower-case hexadecimal digit of a value below 16. -/
def hexChar (d : Nat) : Char :=
  if d < 10 then Char.ofNat (48 + d) else Char.ofNat (87 + d)

/-- The 24 lower-case hexadecimal digits of an id. -/
def hexString (id : ObjectId) : String :=
  String.mk ((List.range 24).map fun i => hexChar (id / 16 ^ (23 - i) % 16))

/-- A runtime: ids are written with 24 hexadecimal digits. -/
def sampleRuntime : Runtime :=
  { toDateString := fun s => "Date " ++ s, castObjectId := hexCast, toHexString := hexString }

/-- A request environment: the store answers, the date is 6 May 2024. -/
def sampleEnv : Env :=
  { today := "2024-05-06", fault := fun _ => false, pageSent := false }

/-- A request environment in which the store rejects every operation, and the
page of `GET /` has not gone out when it does. -/
def downEnv : Env :=
  { today := "2024-05-06", fault := fun _ => true, pageSent := false }

/-- A request environment in which the store rejects every operation, after
the page of `GET /` has gone out. -/
def lateDownEnv : Env :=
  { today := "2024-05-06", fault := fun _ => true, pageSent := true }

/-- A store with one user, of id 10, and nothing else. -/
def aliceStore : Store :=
  { users := [{ _id := 10, username := .string "alice" }], exercises := [], nextId := 11 }

/-- A store with one user and three exercises, a month apart. -/
def sampleStore : Store :=
  { users := [{ _id := 10, username := .string "alice" }],
    exercises :=
      [{ _id := 11, userId := "00000000000000000000000a", username := .string "alice",
         description := "run", duration := .finite 30, date := "2023-01-01" },
       { _id := 12, userId := "00000000000000000000000a", username := .string "alice",
         description := "bike", duration := .finite 45, date := "2023-02-01" },
       { _id := 13, userId := "00000000000000000000000a", username := .string "alice",
         description := "swim", duration := .finite 20, date := "2023-03-01" }],
    nextId := 14 }

/-- The store after a user was created and an exercise dated `tomorrow` was
added for that user. -/
def tomorrowStore : Store :=
  (handle sampleRuntime sampleEnv
    (handle sampleRuntime sampleEnv Store.empty (.postUsers (.string "alice"))).1
    (.postExercises "000000000000000000000000" (.string "run") (.string "30")
      (.string "tomorrow"))).1

/-- The store after a user was created and an exercise with an ISO date was
added for that user. -/
def isoStore : Store :=
  (handle sampleRuntime sampleEnv
    (handle sampleRuntime sampleEnv Store.empty (.postUsers (.string "alice"))).1
    (.postExercises "000000000000000000000000" (.string "run") (.string "30")
      (.string "2023-02-01"))).1

/-! ## The store operations -/

/-- The order of characters is the order of their code points. -/
theorem char_lt_iff (a b : Char) : a < b ↔ a.toNat < b.toNat := Iff.rfl

theorem char_eq_of_toNat (a b : Char) (h : a.toNat = b.toNat) : a = b := by
  apply Char.ext
  apply UInt32.ext
  exact h

/-- The comparison `lexLt` decides the lexicographic order of lists of characters. -/
theorem lexLt_iff : ∀ a b : List Char, lexLt a b = true ↔ a < b
  | [], [] => by simp [lexLt]
  | [], b :: bs => by
    simp only [lexLt, true_iff]
    exact List.Lex.nil
  | a :: as, [] => by simp [lexLt]
  | a :: as, b :: bs => by
    have ih := lexLt_iff as bs
    unfold lexLt
    by_cases h1 : a.toNat < b.toNat
    · simp only [h1, if_true, true_iff]
      exact List.Lex.rel ((char_lt_iff a b).2 h1)
    · by_cases h2 : b.toNat < a.toNat
      · simp only [h1, h2, if_true, if_false]
        constructor
        · intro h; cases h
        · intro h
          cases h with
          | rel h => exact absurd ((char_lt_iff a b).1 h) h1
          | cons h => exact absurd h2 h1
      · simp only [h1, h2, if_false, ih]
        constructor
        · intro h
          have hab : a = b := char_eq_of_toNat a b (by omega)
          subst hab
          exact List.Lex.cons h
        · intro h
          cases h with
          | rel h => exact absurd ((char_lt_iff a b).1 h) h1
          | cons h => exact h

/-- The operator `$lte` of the model is the order `≤` of strings. -/
theorem lte_iff (a b : String) : lte a b = true ↔ a ≤ b := by
  rw [String.le_iff_toList_le, ← not_lt]
  unfold lte
  rw [← lexLt_iff]
  simp [String.toList]

/-- The operator `$gte` of the model is the order `≥` of strings. -/
theorem gte_iff (a b : String) : gte a b = true ↔ b ≤ a := lte_iff b a

/-- A scan without a budget returns the matching documents, in storage order. -/
theorem scan_none (q : Query) (l : List Exercise) : scan q none l = l.filter q.matches := by
  induction l with
  | nil => rfl
  | cons e es ih =>
    by_cases h : q.matches e = true <;> simp [scan, List.filter_cons, h, ih]

/-- A scan with a budget returns the first matching documents, as many as the budget. -/
theorem scan_some (q : Query) (n : Nat) (l : List Exercise) :
    scan q (some n) l = (l.filter q.matches).take n := by
  induction l generalizing n with
  | nil => cases n <;> simp [scan]
  | cons e es ih =>
    cases n with
    | zero => simp [scan]
    | succ n =>
      by_cases h : q.matches e = true <;> simp [scan, List.filter_cons, h, ih]

/-- The lookup gives `null` exactly when no stored user has the id. -/
theorem findById_eq_none {us : List User} {id : ObjectId} :
    findById us id = none ↔ ∀ u ∈ us, u._id ≠ id := by
  induction us with
  | nil => simp [findById]
  | cons u us ih =>
    by_cases h : u._id = id <;> simp [findById, h, ih]

/-- The user a lookup gives is stored and has the id looked up. -/
theorem findById_some_id {us : List User} {id : ObjectId} {u : User}
    (h : findById us id = some u) : u ∈ us ∧ u._id = id := by
  induction us with
  | nil => simp [findById] at h
  | cons v us ih =>
    by_cases hv : v._id = id
    · simp [findById, hv] at h
      subst h
      exact ⟨List.mem_cons_self _ _, hv⟩
    · simp [findById, hv] at h
      exact ⟨List.mem_cons_of_mem _ (ih h).1, (ih h).2⟩

/-- The lookup of the id of a stored user gives a user. -/
theorem findById_of_exists {us : List User} {id : ObjectId}
    (h : ∃ u ∈ us, u._id = id) : ∃ u, findById us id = some u := by
  cases hf : findById us id with
  | some u => exact ⟨u, rfl⟩
  | none =>
    obtain ⟨u, hu, hid⟩ := h
    exact absurd hid (findById_eq_none.1 hf u hu)

/-- Where ids are unique, the lookup of the id of a stored user gives that user. -/
theorem findById_of_nodup {us : List User} {u : User}
    (hn : (us.map fun u => u._id).Nodup) (hu : u ∈ us) : findById us u._id = some u := by
  induction us with
  | nil => simp at hu
  | cons v us ih =>
    rw [List.map_cons, List.nodup_cons] at hn
    by_cases hv : v._id = u._id
    · rcases List.mem_cons.1 hu with h | h
      · subst h; simp [findById]
      · exact absurd (List.mem_map.2 ⟨u, h, hv.symm⟩) hn.1
    · rcases List.mem_cons.1 hu with h | h
      · subst h; exact absurd rfl hv
      · simp [findById, hv, ih hn.2 h]

theorem orElse_of_empty {v : Option String} (d : String) (h : v = none ∨ v = some "") :
    orElse v d = d := by
  rcases h with h | h <;> subst h <;> simp [orElse]

theorem orElse_of_some {x : String} (d : String) (h : x ≠ "") : orElse (some x) d = x := by
  simp [orElse, h]

/-- The expression `v || d`, by cases on `v`. -/
theorem orElse_spec {v : Option String} {d x : String}
    (h : (v = none ∨ v = some "") ∧ x = d ∨ v = some x ∧ x ≠ "") : orElse v d = x := by
  rcases h with ⟨h, rfl⟩ | ⟨rfl, h⟩
  · exact orElse_of_empty _ h
  · exact orElse_of_some _ h

/-- The filter of the log route, in the order `≤` of strings. -/
theorem matches_iff (q : Query) (e : Exercise) :
    q.matches e = true ↔ e.userId = q.userId ∧ q.fromDate ≤ e.date ∧ e.date ≤ q.toDate := by
  simp [Query.matches, gte_iff, lte_iff, and_assoc]

/-- What the `try` block of the log route returns when the store answers and
the path resolves to a stored user. -/
theorem getLogsTry_ok (rt : Runtime) (env : Env) (s : Store) (path : String) (id : ObjectId)
    (lo hi : String) (limit : Number) (user : User) (hup : env.storeUp)
    (hc : rt.castObjectId path = some id) (hu : findById s.users id = some user) :
    getLogsTry rt env s path lo hi limit =
      .ok (s, .log user._id user.username
        ((find s.exercises ⟨path, lo, hi⟩ limit).map (project rt)).length
        ((find s.exercises ⟨path, lo, hi⟩ limit).map (project rt))) := by
  simp only [getLogsTry, hc, hup 0, hup 1, hu]
  rfl

/-- The answer of the log route for a path that resolves to a stored user, the
store responding. -/
theorem getLogs_ok (rt : Runtime) (env : Env) (s : Store) (path : String) (id : ObjectId)
    (fromQuery toQuery limitQuery : Option String) (user : User)
    (hup : env.storeUp) (hc : rt.castObjectId path = some id)
    (hu : findById s.users id = some user) :
    getLogs rt env s path fromQuery toQuery limitQuery =
      (s, { status := 200,
            body := .log id user.username
              ((find s.exercises ⟨path, orElse fromQuery "1970-01-01", orElse toQuery env.today⟩
                (parseIntOrZero (ofQuery limitQuery))).map (project rt)).length
              ((find s.exercises ⟨path, orElse fromQuery "1970-01-01", orElse toQuery env.today⟩
                (parseIntOrZero (ofQuery limitQuery))).map (project rt)) }) := by
  simp only [getLogs, getLogsTry_ok rt env s path id _ _ _ user hup hc hu,
    (findById_some_id hu).2]

/-- An absent limit is the limit 0. -/
theorem parseIntOrZero_none : parseIntOrZero (ofQuery none) = .finite 0 := by decide

/-- The limit 0 is no limit. -/
theorem find_unlimited (l : List Exercise) (q : Query) :
    find l q (.finite 0) = l.filter q.matches := by
  simp [find, budget, scan_none]

/-- A positive limit `n` keeps the first `n` matching documents. -/
theorem find_limited (l : List Exercise) (q : Query) (n : Int) (h : 0 < n) :
    find l q (.finite n) = (l.filter q.matches).take n.toNat := by
  have h0 : n ≠ 0 := by omega
  have h1 : n.natAbs = n.toNat := by omega
  simp [find, budget, h0, scan_some, h1]

/-- The answer of the log route without a limit, the store responding. -/
theorem getLogs_none_eq (rt : Runtime) (env : Env) (s : Store) (path : String) (id : ObjectId)
    (fromQuery toQuery : Option String) (lo hi : String)
    (hup : env.storeUp) (hc : rt.castObjectId path = some id)
    (hu : ∃ u ∈ s.users, u._id = id)
    (hlo : (fromQuery = none ∨ fromQuery = some "") ∧ lo = "1970-01-01" ∨
      fromQuery = some lo ∧ lo ≠ "")
    (hhi : (toQuery = none ∨ toQuery = some "") ∧ hi = env.today ∨
      toQuery = some hi ∧ hi ≠ "") :
    ∃ username,
      getLogs rt env s path fromQuery toQuery none =
        (s, { status := 200,
              body := .log id username
                (s.exercises.filter fun e =>
                  e.userId = path ∧ lo ≤ e.date ∧ e.date ≤ hi).length
                ((s.exercises.filter fun e =>
                  e.userId = path ∧ lo ≤ e.date ∧ e.date ≤ hi).map (project rt)) }) := by
  obtain ⟨user, hf⟩ := findById_of_exists hu
  refine ⟨user.username, ?_⟩
  have hq : (fun e : Exercise => decide (e.userId = path ∧ lo ≤ e.date ∧ e.date ≤ hi)) =
      (Query.matches ⟨path, lo, hi⟩) := by
    funext e
    rw [Bool.eq_iff_iff, decide_eq_true_iff, matches_iff]
  rw [getLogs_ok rt env s path id fromQuery toQuery none user hup hc hf, orElse_spec hlo,
    orElse_spec hhi, parseIntOrZero_none, find_unlimited, hq, List.length_map]

/-- The shape of a valid ISO date: ten characters, digits around two hyphens. -/
theorem iso_shape {a : String} (h : isIsoDate a = true) :
    ∃ y1 y2 y3 y4 h1 m1 m2 h2 d1 d2 : Char,
      a.data = [y1, y2, y3, y4, h1, m1, m2, h2, d1, d2] ∧ h1 = '-' ∧ h2 = '-' ∧
      isDigit y1 = true ∧ isDigit y2 = true ∧ isDigit y3 = true ∧ isDigit y4 = true ∧
      isDigit m1 = true ∧ isDigit m2 = true ∧ isDigit d1 = true ∧ isDigit d2 = true ∧
      calendarDate a = some (digit y1 * 1000 + digit y2 * 100 + digit y3 * 10 + digit y4,
        digit m1 * 10 + digit m2, digit d1 * 10 + digit d2) := by
  unfold isIsoDate at h
  unfold calendarDate at h ⊢
  split at h
  next y1 y2 y3 y4 h1 m1 m2 h2 d1 d2 heq =>
    by_cases hc : (isDigit y1 && isDigit y2 && isDigit y3 && isDigit y4 && h1 = '-' && isDigit m1
        && isDigit m2 && h2 = '-' && isDigit d1 && isDigit d2) = true
    · by_cases hr : 1 ≤ digit m1 * 10 + digit m2 ∧ digit m1 * 10 + digit m2 ≤ 12 ∧
          1 ≤ digit d1 * 10 + digit d2 ∧ digit d1 * 10 + digit d2 ≤
            daysInMonth (digit y1 * 1000 + digit y2 * 100 + digit y3 * 10 + digit y4)
              (digit m1 * 10 + digit m2)
      · refine ⟨y1, y2, y3, y4, h1, m1, m2, h2, d1, d2, heq, ?_, ?_, ?_⟩
        · simp only [Bool.and_eq_true, decide_eq_true_eq] at hc
          exact hc.1.1.1.1.1.2
        · simp only [Bool.and_eq_true, decide_eq_true_eq] at hc
          exact hc.1.1.2
        · simp only [heq, hc, hr, if_true, and_self, and_true]
          simp only [Bool.and_eq_true, decide_eq_true_eq] at hc
          simp [hc]
      · simp [hc, hr] at h
    · simp [hc] at h
  next => simp at h

/-- One step of the comparison of two non-empty lists. -/
theorem lexLt_cons_false (a b : Char) (as bs : List Char) (P : Prop)
    (h : lexLt bs as = false ↔ P) :
    lexLt (b :: bs) (a :: as) = false ↔ (a.toNat < b.toNat ∨ (a.toNat = b.toNat ∧ P)) := by
  rw [lexLt]
  split_ifs with h1 h2
  · simp only [reduceCtorEq, false_iff]; omega
  · simp only [true_iff]; omega
  · rw [h]
    constructor
    · intro hp; exact Or.inr ⟨by omega, hp⟩
    · rintro (hp | ⟨_, hp⟩)
      · omega
      · exact hp

theorem lexLt_same (c : Char) (as bs : List Char) : lexLt (c :: bs) (c :: as) = lexLt bs as := by
  rw [lexLt]; simp

theorem lexLt_last (a b : Char) : lexLt [b] [a] = false ↔ a.toNat ≤ b.toNat := by
  rw [lexLt]
  split_ifs with h1 h2
  · simp only [reduceCtorEq, false_iff]; omega
  · simp only [true_iff]; omega
  · simp only [lexLt, true_iff]; omega

/-- The comparison of two strings of ten characters that agree at the fifth and the eighth. -/
theorem lex_chain (a1 a2 a3 a4 a5 a6 a7 a8 b1 b2 b3 b4 b5 b6 b7 b8 c1 c2 : Char) :
    lexLt [b1, b2, b3, b4, c1, b5, b6, c2, b7, b8] [a1, a2, a3, a4, c1, a5, a6, c2, a7, a8]
      = false ↔
    (a1.toNat < b1.toNat ∨ (a1.toNat = b1.toNat ∧ (a2.toNat < b2.toNat ∨ (a2.toNat = b2.toNat ∧
      (a3.toNat < b3.toNat ∨ (a3.toNat = b3.toNat ∧ (a4.toNat < b4.toNat ∨ (a4.toNat = b4.toNat ∧
      (a5.toNat < b5.toNat ∨ (a5.toNat = b5.toNat ∧ (a6.toNat < b6.toNat ∨ (a6.toNat = b6.toNat ∧
      (a7.toNat < b7.toNat ∨ (a7.toNat = b7.toNat ∧ a8.toNat ≤ b8.toNat)))))))))))))) := by
  apply lexLt_cons_false
  apply lexLt_cons_false
  apply lexLt_cons_false
  apply lexLt_cons_false
  rw [lexLt_same]
  apply lexLt_cons_false
  apply lexLt_cons_false
  rw [lexLt_same]
  apply lexLt_cons_false
  exact lexLt_last a8 b8

/-- Comparing eight decimal digits one by one is comparing year, month and day. -/
theorem digits_chain (a1 a2 a3 a4 a5 a6 a7 a8 b1 b2 b3 b4 b5 b6 b7 b8 : Nat)
    (p1 : 48 ≤ a1 ∧ a1 ≤ 57) (p2 : 48 ≤ a2 ∧ a2 ≤ 57) (p3 : 48 ≤ a3 ∧ a3 ≤ 57)
    (p4 : 48 ≤ a4 ∧ a4 ≤ 57) (p5 : 48 ≤ a5 ∧ a5 ≤ 57) (p6 : 48 ≤ a6 ∧ a6 ≤ 57)
    (p7 : 48 ≤ a7 ∧ a7 ≤ 57) (p8 : 48 ≤ a8 ∧ a8 ≤ 57)
    (q1 : 48 ≤ b1 ∧ b1 ≤ 57) (q2 : 48 ≤ b2 ∧ b2 ≤ 57) (q3 : 48 ≤ b3 ∧ b3 ≤ 57)
    (q4 : 48 ≤ b4 ∧ b4 ≤ 57) (q5 : 48 ≤ b5 ∧ b5 ≤ 57) (q6 : 48 ≤ b6 ∧ b6 ≤ 57)
    (q7 : 48 ≤ b7 ∧ b7 ≤ 57) (q8 : 48 ≤ b8 ∧ b8 ≤ 57) :
    (a1 < b1 ∨ (a1 = b1 ∧ (a2 < b2 ∨ (a2 = b2 ∧ (a3 < b3 ∨ (a3 = b3 ∧ (a4 < b4 ∨ (a4 = b4 ∧
      (a5 < b5 ∨ (a5 = b5 ∧ (a6 < b6 ∨ (a6 = b6 ∧ (a7 < b7 ∨ (a7 = b7 ∧ a8 ≤ b8)))))))))))))) ↔
    ((a1 - 48) * 1000 + (a2 - 48) * 100 + (a3 - 48) * 10 + (a4 - 48) <
        (b1 - 48) * 1000 + (b2 - 48) * 100 + (b3 - 48) * 10 + (b4 - 48) ∨
      ((a1 - 48) * 1000 + (a2 - 48) * 100 + (a3 - 48) * 10 + (a4 - 48) =
        (b1 - 48) * 1000 + (b2 - 48) * 100 + (b3 - 48) * 10 + (b4 - 48) ∧
        ((a5 - 48) * 10 + (a6 - 48) < (b5 - 48) * 10 + (b6 - 48) ∨
          ((a5 - 48) * 10 + (a6 - 48) = (b5 - 48) * 10 + (b6 - 48) ∧
            (a7 - 48) * 10 + (a8 - 48) ≤ (b7 - 48) * 10 + (b8 - 48))))) := by
  omega

theorem notAfter_iff (y m d y2 m2 d2 : Nat) :
    notAfter (y, m, d) (y2, m2, d2) = true ↔
      y < y2 ∨ (y = y2 ∧ (m < m2 ∨ (m = m2 ∧ d ≤ d2))) := by
  simp [notAfter]

theorem lexLt_digits (x1 x2 x3 x4 x5 x6 x7 x8 y1 y2 y3 y4 y5 y6 y7 y8 h1 h2 : Char)
    (p1 : isDigit x1 = true) (p2 : isDigit x2 = true) (p3 : isDigit x3 = true)
    (p4 : isDigit x4 = true) (p5 : isDigit x5 = true) (p6 : isDigit x6 = true)
    (p7 : isDigit x7 = true) (p8 : isDigit x8 = true)
    (q1 : isDigit y1 = true) (q2 : isDigit y2 = true) (q3 : isDigit y3 = true)
    (q4 : isDigit y4 = true) (q5 : isDigit y5 = true) (q6 : isDigit y6 = true)
    (q7 : isDigit y7 = true) (q8 : isDigit y8 = true) :
    (!lexLt [y1, y2, y3, y4, h1, y5, y6, h2, y7, y8] [x1, x2, x3, x4, h1, x5, x6, h2, x7, x8]) =
      notAfter (digit x1 * 1000 + digit x2 * 100 + digit x3 * 10 + digit x4,
          digit x5 * 10 + digit x6, digit x7 * 10 + digit x8)
        (digit y1 * 1000 + digit y2 * 100 + digit y3 * 10 + digit y4,
          digit y5 * 10 + digit y6, digit y7 * 10 + digit y8) := by
  simp only [isDigit, Bool.and_eq_true, decide_eq_true_eq] at p1 p2 p3 p4 p5 p6 p7 p8 q1 q2 q3 q4 q5 q6 q7 q8
  rw [Bool.eq_iff_iff, notAfter_iff, Bool.not_eq_true', lex_chain]
  exact digits_chain _ _ _ _ _ _ _ _ _ _ _ _ _ _ _ _ p1 p2 p3 p4 p5 p6 p7 p8 q1 q2 q3 q4 q5 q6 q7 q8

/-- On valid ISO dates the operator `$lte` is the chronological order. -/
theorem iso_order {a b : String} (ha : isIsoDate a = true) (hb : isIsoDate b = true) :
    lte a b = chronoLe a b := by
  obtain ⟨a1, a2, a3, a4, g1, a5, a6, g2, a7, a8, hda, hg1, hg, p1, p2, p3, p4, p5, p6, p7, p8, hca⟩ :=
    iso_shape ha
  obtain ⟨b1, b2, b3, b4, k1, b5, b6, k2, b7, b8, hdb, hk1, hk, q1, q2, q3, q4, q5, q6, q7, q8, hcb⟩ :=
    iso_shape hb
  subst hg hk
  obtain ⟨rfl, rfl⟩ : g1 = '-' ∧ k1 = '-' := ⟨by assumption, by assumption⟩
  simp only [lte, chronoLe, hda, hdb, hca, hcb]
  exact lexLt_digits a1 a2 a3 a4 a5 a6 a7 a8 b1 b2 b3 b4 b5 b6 b7 b8 _ _
    p1 p2 p3 p4 p5 p6 p7 p8 q1 q2 q3 q4 q5 q6 q7 q8

/-- A valid ISO date is not the empty string. -/
theorem iso_ne_empty {a : String} (h : isIsoDate a = true) : a ≠ "" := by
  obtain ⟨_, _, _, _, _, _, _, _, _, _, hd, _⟩ := iso_shape h
  intro he
  rw [he] at hd
  simp at hd

/-- The validator accepts a string that is not empty. -/
theorem required_string {d : String} (hd : d ≠ "") : required (.string d) = some d := by
  simp [required, castString, jsToString, hd]

/-- A truthy date is stored in its string form. -/
theorem dateOrToday_string (env : Env) {x : String} (h : x ≠ "") :
    dateOrToday env (.string x) = x := by
  simp [dateOrToday, truthy, jsToString, h]

/-- A falsy date is replaced by the current date. -/
theorem dateOrToday_falsy (env : Env) {v : Value} (h : truthy v = false) :
    dateOrToday env v = env.today := by
  simp [dateOrToday, h]

/-- The store and the answer after a successful request to the add-exercise route. -/
theorem postExercises_ok (rt : Runtime) (env : Env) (s : Store) (path : String)
    (description duration date : Value) (u : User) (d : String) (n : Number)
    (hup : env.storeUp) (hc : rt.castObjectId path = some u._id)
    (hu : findById s.users u._id = some u)
    (hd : required description = some d) (hn : parseInt duration = some n) :
    postExercises rt env s path description duration date =
      ({ users := s.users,
         exercises := s.exercises ++
           [{ _id := s.nextId, userId := rt.toHexString u._id, username := u.username,
              description := d, duration := n, date := dateOrToday env date }],
         nextId := s.nextId + 1 },
       { status := 200,
         body := .exercise u.username d n (rt.toDateString (dateOrToday env date)) u._id }) := by
  simp only [postExercises, postExercisesTry, hc, hup 0, hup 1, hu, hd, hn]
  rfl

/-- The store and the answer after a successful request to the create-user route. -/
theorem postUsers_ok (env : Env) (s : Store) (username : Value)
    (hup : env.storeUp) :
    postUsers env s username =
      ({ users := s.users ++ [{ _id := s.nextId, username := castString username }],
         exercises := s.exercises, nextId := s.nextId + 1 },
       { status := 200, body := .user (castString username) s.nextId }) := by
  simp only [postUsers, postUsersTry, hup 0]
  rfl

/-- The answer of the list route when users are stored, the store responding. -/
theorem getUsers_ok (env : Env) (s : Store) (hup : env.storeUp) (hne : s.users ≠ []) :
    getUsers env s = (s, { status := 200, body := .users s.users }) := by
  have : s.users.length ≠ 0 := by
    intro h; exact hne (List.length_eq_zero.1 h)
  simp [getUsers, getUsersTry, hup 0, this]

/-- The handler of a request to a route other than `GET /` is its guarded part
followed by `catch`. -/
theorem handle_eq_attempt (rt : Runtime) (env : Env) (s : Store) (r : Request)
    (hr : r ≠ .getRoot) :
    handle rt env s r =
      match attempt rt env s r with
      | .ok (s1, body) => (s1, some { status := 200, body := body })
      | .error s1 =>
        (s1, some { status := if r.isGetLogs then 500 else 200,
                    body := .message (catchMessage r) }) := by
  cases r with
  | getRoot => exact absurd rfl hr
  | getUsersDelete =>
    simp only [handle, attempt, getUsersDelete, Request.isGetLogs, catchMessage]
    split <;> simp_all
  | getExercisesDelete =>
    simp only [handle, attempt, getExercisesDelete, Request.isGetLogs, catchMessage]
    split <;> simp_all
  | getUsers =>
    simp only [handle, attempt, getUsers, Request.isGetLogs, catchMessage]
    split <;> simp_all
  | postUsers v =>
    simp only [handle, attempt, postUsers, Request.isGetLogs, catchMessage]
    split <;> simp_all
  | postExercises p a b c =>
    simp only [handle, attempt, postExercises, Request.isGetLogs, catchMessage]
    split <;> simp_all
  | getLogs p a b c =>
    simp only [handle, attempt, getLogs, Request.isGetLogs, catchMessage]
    split <;> simp_all

theorem wf_empty : WF Store.empty := by
  simp [WF, Store.empty]

theorem wf_bump {s : Store} (h : WF s) :
    WF { users := s.users, exercises := s.exercises, nextId := s.nextId + 1 } :=
  ⟨fun u hu => Nat.lt_succ_of_lt (h.1 u hu), fun e he => Nat.lt_succ_of_lt (h.2.1 e he), h.2.2⟩

theorem wf_add_user {s : Store} (h : WF s) (name : Value) :
    WF { users := s.users ++ [{ _id := s.nextId, username := name }],
         exercises := s.exercises, nextId := s.nextId + 1 } := by
  refine ⟨?_, fun e he => Nat.lt_succ_of_lt (h.2.1 e he), ?_⟩
  · intro u hu
    rcases List.mem_append.1 hu with hu | hu
    · exact Nat.lt_succ_of_lt (h.1 u hu)
    · rw [List.mem_singleton.1 hu]; exact Nat.lt_succ_self _
  · simp only [List.map_append, List.map_cons, List.map_nil]
    rw [List.nodup_append]
    refine ⟨h.2.2, List.nodup_singleton _, ?_⟩
    intro a ha hb
    rw [List.mem_singleton] at hb
    obtain ⟨u, hu, rfl⟩ := List.mem_map.1 ha
    exact Nat.ne_of_lt (h.1 u hu) hb

theorem wf_add_exercise {s : Store} (h : WF s) (e : Exercise) (he : e._id = s.nextId) :
    WF { users := s.users, exercises := s.exercises ++ [e], nextId := s.nextId + 1 } := by
  refine ⟨fun u hu => Nat.lt_succ_of_lt (h.1 u hu), ?_, h.2.2⟩
  intro x hx
  rcases List.mem_append.1 hx with hx | hx
  · exact Nat.lt_succ_of_lt (h.2.1 x hx)
  · rw [List.mem_singleton.1 hx, he]; exact Nat.lt_succ_self _

/-- Every handler preserves `WF`. -/
theorem wf_handle (rt : Runtime) (env : Env) (s : Store) (r : Request) (h : WF s) :
    WF (handle rt env s r).1 := by
  cases r with
  | getUsersDelete =>
    simp only [handle, getUsersDelete, getUsersDeleteTry]
    cases env.fault 0
    · exact ⟨by simp, h.2.1, by simp⟩
    · exact h
  | getExercisesDelete =>
    simp only [handle, getExercisesDelete, getExercisesDeleteTry]
    cases env.fault 0
    · exact ⟨h.1, by simp, h.2.2⟩
    · exact h
  | getRoot =>
    simp only [handle, getRoot, getRootTry]
    cases env.fault 0
    · cases env.fault 1 <;> exact h
    · exact h
  | getUsers =>
    simp only [handle, getUsers, getUsersTry]
    cases env.fault 0
    · by_cases hl : s.users.length = 0 <;> simp only [hl, if_true, if_false] <;> exact h
    · exact h
  | postUsers name =>
    simp only [handle, postUsers, postUsersTry]
    cases env.fault 0
    · exact wf_add_user h _
    · exact wf_bump h
  | postExercises path a b c =>
    simp only [handle, postExercises, postExercisesTry]
    cases rt.castObjectId path with
    | none => exact h
    | some id =>
      dsimp only
      cases env.fault 0
      · simp only [Bool.false_eq_true, ↓reduceIte]
        cases findById s.users id with
        | none => exact h
        | some u =>
          dsimp only
          cases required a with
          | none => exact wf_bump h
          | some d =>
            cases parseInt b with
            | none => exact wf_bump h
            | some n =>
              dsimp only
              cases env.fault 1
              · exact wf_add_exercise h _ rfl
              · exact wf_bump h
      · exact h
  | getLogs path a b c =>
    simp only [handle, getLogs, getLogsTry]
    cases rt.castObjectId path with
    | none => exact h
    | some id =>
      dsimp only
      cases env.fault 0
      · simp only [Bool.false_eq_true, ↓reduceIte]
        cases env.fault 1
        · simp only [Bool.false_eq_true, ↓reduceIte]
          cases findById s.users id <;> exact h
        · exact h
      · exact h

/-- Every store reachable from the empty store satisfies `WF`. -/
theorem wf_of_reachable {rt : Runtime} {allowed : Env → Request → Prop} {s : Store}
    (h : ReachableBy rt allowed s) : WF s := by
  induction h with
  | empty => exact wf_empty
  | step env r _ _ ih => exact wf_handle rt env _ r ih

/-- The exercises stored after a request are those stored before and, after a
request to the add-exercise route, at most one more, dated as the request says. -/
theorem handle_exercises (rt : Runtime) (env : Env) (s : Store) (r : Request) (e : Exercise)
    (he : e ∈ (handle rt env s r).1.exercises) :
    e ∈ s.exercises ∨ ∃ path a b date, r = .postExercises path a b date ∧
      e.date = dateOrToday env date := by
  cases r with
  | getUsersDelete =>
    simp only [handle, getUsersDelete, getUsersDeleteTry] at he
    cases hf : env.fault 0 <;> simp [hf] at he <;> exact Or.inl he
  | getExercisesDelete =>
    simp only [handle, getExercisesDelete, getExercisesDeleteTry] at he
    cases hf : env.fault 0 <;> simp [hf] at he
    exact Or.inl he
  | getRoot =>
    simp only [handle, getRoot, getRootTry] at he
    cases hf : env.fault 0 <;> simp only [hf] at he
    · cases hf1 : env.fault 1 <;> simp only [hf1] at he <;> exact Or.inl he
    · exact Or.inl he
  | getUsers =>
    simp only [handle, getUsers, getUsersTry] at he
    cases hf : env.fault 0 <;> simp [hf] at he
    · by_cases hl : s.users = [] <;> simp [hl] at he <;> exact Or.inl he
    · exact Or.inl he
  | postUsers name =>
    simp only [handle, postUsers, postUsersTry] at he
    cases hf : env.fault 0 <;> simp [hf] at he <;> exact Or.inl he
  | postExercises path a b c =>
    simp only [handle, postExercises, postExercisesTry] at he
    cases hc : rt.castObjectId path <;> simp only [hc] at he
    · exact Or.inl he
    · cases hf : env.fault 0 <;> simp only [hf] at he
      · rename_i id
        cases hu : findById s.users id <;> simp only [hu] at he
        · exact Or.inl he
        · cases ha : required a <;> simp only [ha] at he
          · exact Or.inl he
          · cases hb : parseInt b <;> simp only [hb] at he
            · exact Or.inl he
            · cases hf1 : env.fault 1 <;> simp [hf1] at he
              · rcases he with he | he
                · exact Or.inl he
                · exact Or.inr ⟨path, a, b, c, rfl, by rw [he]⟩
              · exact Or.inl he
      · exact Or.inl he
  | getLogs path a b c =>
    simp only [handle, getLogs, getLogsTry] at he
    cases hc : rt.castObjectId path <;> simp only [hc] at he
    · exact Or.inl he
    · cases hf : env.fault 0 <;> simp only [hf] at he
      · cases hf1 : env.fault 1 <;> simp only [hf1] at he
        · rename_i id
          cases hu : findById s.users id <;> simp only [hu] at he <;> exact Or.inl he
        · exact Or.inl he
      · exact Or.inl he

/-- The store reached by creating a user and adding an exercise with an ISO
date is reachable through requests with ISO dates. -/
theorem isoStore_reachable : ReachableBy sampleRuntime isoRequest isoStore :=
  ReachableBy.step sampleEnv _ (ReachableBy.step sampleEnv _ ReachableBy.empty trivial)
    ⟨by decide, Or.inr ⟨_, rfl, by decide⟩⟩

/-- The sample store with one user satisfies `WF`. -/
theorem wf_aliceStore : WF aliceStore := by
  simp [WF, aliceStore]

/-- In the sample environment the store answers. -/
theorem storeUp_sampleEnv : sampleEnv.storeUp := fun _ => rfl

set_option exponentiation.threshold 1100 in
set_option maxRecDepth 4000 in
/-- A digit string beyond `2 ^ 53` is read as the nearest double. -/
theorem parseInt_rounds :
    parseInt (.string "9007199254740993") = some (.finite 9007199254740992) := by
  decide

/-- A falsy date of a JSON body, `0` or `false`, is replaced by the current
date. -/
theorem dateOrToday_zero :
    dateOrToday sampleEnv (.number false 0) = "2024-05-06" ∧
    dateOrToday sampleEnv (.bool false) = "2024-05-06" := by
  decide

/-! ## The claims -/

/-- C1. For every store, every path id that resolves to a stored user and
every pair of query values `from` and `to` (an absent or empty `from` replaced
by `1970-01-01`, an absent or empty `to` by the current UTC date), the log
route called without a limit answers, the store responding, with status 200
and a log that is the projection to description, duration and rendered date of
exactly the stored exercises whose `userId` equals the path id and whose date
string `d` satisfies `from ≤ d ≤ to` in the lexicographic order of strings, in
storage order. The `userId` of an exercise is a string and is compared with
the path id as a string. -/
theorem getLogs_unlimited_log (rt : Runtime) (env : Env) (s : Store) (path : String)
    (id : ObjectId) (fromQuery toQuery : Option String) (lo hi : String)
    (hup : env.storeUp) (hc : rt.castObjectId path = some id)
    (hu : ∃ u ∈ s.users, u._id = id)
    (hlo : (fromQuery = none ∨ fromQuery = some "") ∧ lo = "1970-01-01" ∨
      fromQuery = some lo ∧ lo ≠ "")
    (hhi : (toQuery = none ∨ toQuery = some "") ∧ hi = env.today ∨
      toQuery = some hi ∧ hi ≠ "") :
    ∃ username,
      getLogs rt env s path fromQuery toQuery none =
        (s, { status := 200,
              body := .log id username
                (s.exercises.filter fun e =>
                  e.userId = path ∧ lo ≤ e.date ∧ e.date ≤ hi).length
                ((s.exercises.filter fun e =>
                  e.userId = path ∧ lo ≤ e.date ∧ e.date ≤ hi).map (project rt)) }) :=
  getLogs_none_eq rt env s path id fromQuery toQuery lo hi hup hc hu hlo hhi

/-- C1 at the sample store: from 15 January 2023 and no `to`, the log holds the
February and the March exercise. -/
theorem getLogs_unlimited_log_witness :
    (∃ username,
      getLogs sampleRuntime sampleEnv sampleStore "00000000000000000000000a"
          (some "2023-01-15") none none =
        (sampleStore,
          { status := 200,
            body := .log 10 username
                (sampleStore.exercises.filter fun e =>
                  e.userId = "00000000000000000000000a" ∧ "2023-01-15" ≤ e.date ∧
                    e.date ≤ "2024-05-06").length
                ((sampleStore.exercises.filter fun e =>
                  e.userId = "00000000000000000000000a" ∧ "2023-01-15" ≤ e.date ∧
                    e.date ≤ "2024-05-06").map (project sampleRuntime)) })) ∧
    getLogs sampleRuntime sampleEnv sampleStore "00000000000000000000000a"
        (some "2023-01-15") none none =
      (sampleStore,
        { status := 200,
          body := .log 10 (.string "alice") 2
              [{ description := "bike", duration := .finite 45, date := "Date 2023-02-01" },
               { description := "swim", duration := .finite 20, date := "Date 2023-03-01" }] }) :=
  ⟨getLogs_unlimited_log sampleRuntime sampleEnv sampleStore "00000000000000000000000a" 10
      (some "2023-01-15") none "2023-01-15" "2024-05-06" storeUp_sampleEnv (by decide)
      ⟨_, List.mem_cons_self _ _, rfl⟩ (Or.inr ⟨rfl, by decide⟩) (Or.inl ⟨Or.inl rfl, rfl⟩),
    by decide⟩

/-- C2. For a path id that resolves to a stored user, with `m` exercises that
match the id and the date range: when the `limit` query value parses to a
positive integer `n`, the log has `min n m` entries, is an initial segment of
the log of the same query without a limit, and `count` is the number of entries
of `log`; when the value is absent, is not numeric or parses to 0, the answer
is that of the query without a limit, all `m` entries with `count` equal to
`m`. -/
theorem getLogs_limit (rt : Runtime) (env : Env) (s : Store) (path : String) (id : ObjectId)
    (fromQuery toQuery limitQuery : Option String)
    (hup : env.storeUp) (hc : rt.castObjectId path = some id)
    (hu : ∃ u ∈ s.users, u._id = id) :
    ∃ username all,
      getLogs rt env s path fromQuery toQuery none =
        (s, { status := 200, body := .log id username all.length all }) ∧
      all.length = (s.exercises.filter (Query.matches
        ⟨path, orElse fromQuery "1970-01-01", orElse toQuery env.today⟩)).length ∧
      (∀ n : Int, parseInt (ofQuery limitQuery) = some (.finite n) → 0 < n →
        ∃ log count,
          getLogs rt env s path fromQuery toQuery limitQuery =
            (s, { status := 200, body := .log id username count log }) ∧
          log.length = min n.toNat all.length ∧ log <+: all ∧ count = log.length) ∧
      (limitQuery = none ∨ parseInt (ofQuery limitQuery) = none ∨
          parseInt (ofQuery limitQuery) = some (.finite 0) →
        getLogs rt env s path fromQuery toQuery limitQuery =
          (s, { status := 200, body := .log id username all.length all })) := by
  obtain ⟨user, hf⟩ := findById_of_exists hu
  refine ⟨user.username, (s.exercises.filter (Query.matches
    ⟨path, orElse fromQuery "1970-01-01", orElse toQuery env.today⟩)).map (project rt),
    ?_, ?_, ?_, ?_⟩
  · rw [getLogs_ok rt env s path id fromQuery toQuery none user hup hc hf, parseIntOrZero_none,
      find_unlimited]
  · simp
  · intro n hn hpos
    refine ⟨_, _, getLogs_ok rt env s path id fromQuery toQuery limitQuery user hup hc hf,
      ?_, ?_, rfl⟩
    · simp [parseIntOrZero, hn, find_limited _ _ n hpos]
    · simp only [parseIntOrZero, hn, Option.getD_some, find_limited _ _ n hpos, List.map_take]
      exact List.take_prefix _ _
  · intro h
    have hz : parseIntOrZero (ofQuery limitQuery) = .finite 0 := by
      rcases h with h | h | h
      · subst h; exact parseIntOrZero_none
      · simp [parseIntOrZero, h]
      · simp [parseIntOrZero, h]
    rw [getLogs_ok rt env s path id fromQuery toQuery limitQuery user hup hc hf, hz,
      find_unlimited]

/-- C2 at the sample store: `limit=1` with three matching entries gives one
entry and `count` 1. -/
theorem getLogs_limit_witness :
    (∃ log count,
      getLogs sampleRuntime sampleEnv sampleStore "00000000000000000000000a" none none
          (some "1") =
        (sampleStore, { status := 200, body := .log 10 (.string "alice") count log }) ∧
      log.length = 1 ∧ count = 1) ∧
    getLogs sampleRuntime sampleEnv sampleStore "00000000000000000000000a" none none
        (some "1") =
      (sampleStore,
        { status := 200,
          body := .log 10 (.string "alice") 1
              [{ description := "run", duration := .finite 30, date := "Date 2023-01-01" }] }) := by
  obtain ⟨username, all, hall, hlen, hpos, _⟩ :=
    getLogs_limit sampleRuntime sampleEnv sampleStore "00000000000000000000000a" 10 none none
      (some "1") storeUp_sampleEnv (by decide) ⟨_, List.mem_cons_self _ _, rfl⟩
  obtain ⟨log, count, h1, h2, _, h4⟩ := hpos 1 (by decide) (by decide)
  have h3 : all.length = 3 := by rw [hlen]; decide
  have hname : username = .string "alice" := by
    have h := h1.symm.trans
      (show getLogs sampleRuntime sampleEnv sampleStore "00000000000000000000000a" none none
          (some "1") =
        (sampleStore,
          { status := 200,
            body := .log 10 (.string "alice") 1
              [{ description := "run", duration := .finite 30,
                 date := "Date 2023-01-01" }] }) by decide)
    injection h with _ h
    injection h with _ h
    injection h with _ h
  subst hname
  rw [h3] at h2
  exact ⟨⟨log, count, h1, by simpa using h2, by rw [h4]; simpa using h2⟩, by decide⟩

/-- C3. On valid ISO `YYYY-MM-DD` strings the lexicographic order of strings is
the chronological order of the dates they name; so, for a path id that
resolves to a stored user, when the exercises stored under that id all carry
valid ISO dates and `from` and `to` are valid ISO dates, the log route selects
exactly the exercises stored under that id and dated from `from` to `to`
inclusive in calendar order. -/
theorem getLogs_iso_filter (rt : Runtime) (env : Env) (s : Store) (path : String)
    (id : ObjectId) (fromDate toDate : String)
    (hup : env.storeUp) (hc : rt.castObjectId path = some id)
    (hu : ∃ u ∈ s.users, u._id = id)
    (hs : ∀ e ∈ s.exercises, e.userId = path → isIsoDate e.date = true)
    (hf : isIsoDate fromDate = true) (ht : isIsoDate toDate = true) :
    (∀ a b, isIsoDate a = true → isIsoDate b = true → (a ≤ b ↔ chronoLe a b = true)) ∧
    ∃ username,
      getLogs rt env s path (some fromDate) (some toDate) none =
        (s, { status := 200,
              body := .log id username
                (s.exercises.filter fun e => e.userId = path ∧
                  chronoLe fromDate e.date = true ∧ chronoLe e.date toDate = true).length
                ((s.exercises.filter fun e => e.userId = path ∧
                  chronoLe fromDate e.date = true ∧ chronoLe e.date toDate = true).map
                    (project rt)) }) := by
  refine ⟨fun a b ha hb => by rw [← lte_iff, iso_order ha hb], ?_⟩
  obtain ⟨username, h⟩ := getLogs_none_eq rt env s path id (some fromDate) (some toDate)
    fromDate toDate hup hc hu (Or.inr ⟨rfl, iso_ne_empty hf⟩) (Or.inr ⟨rfl, iso_ne_empty ht⟩)
  refine ⟨username, ?_⟩
  have hfilter : (s.exercises.filter fun e =>
      decide (e.userId = path ∧ fromDate ≤ e.date ∧ e.date ≤ toDate)) =
      (s.exercises.filter fun e => decide (e.userId = path ∧
        chronoLe fromDate e.date = true ∧ chronoLe e.date toDate = true)) := by
    apply List.filter_congr
    intro e he
    by_cases hid : e.userId = path
    · have hd := hs e he hid
      have h1 : fromDate ≤ e.date ↔ chronoLe fromDate e.date = true := by
        rw [← lte_iff, iso_order hf hd]
      have h2 : e.date ≤ toDate ↔ chronoLe e.date toDate = true := by
        rw [← lte_iff, iso_order hd ht]
      simp only [h1, h2]
    · simp [hid]
  rw [h, hfilter]

/-- C3 at the sample store: exercises on 2023-01-01, 2023-02-01 and 2023-03-01
queried from 2023-01-15 to 2023-02-15 give exactly the entry of 2023-02-01. -/
theorem getLogs_iso_filter_witness :
    (∀ e ∈ sampleStore.exercises, e.userId = "00000000000000000000000a" →
      isIsoDate e.date = true) ∧
    isIsoDate "2023-01-15" = true ∧ isIsoDate "2023-02-15" = true ∧
    ("2023-01-15" ≤ "2023-02-01" ↔ chronoLe "2023-01-15" "2023-02-01" = true) ∧
    getLogs sampleRuntime sampleEnv sampleStore "00000000000000000000000a"
        (some "2023-01-15") (some "2023-02-15") none =
      (sampleStore,
        { status := 200,
          body := .log 10 (.string "alice") 1
              [{ description := "bike", duration := .finite 45, date := "Date 2023-02-01" }] }) :=
  ⟨by decide, by decide, by decide,
    (getLogs_iso_filter sampleRuntime sampleEnv sampleStore "00000000000000000000000a" 10
      "2023-01-15" "2023-02-15" storeUp_sampleEnv (by decide) ⟨_, List.mem_cons_self _ _, rfl⟩
      (by decide) (by decide) (by decide)).1 _ _ (by decide) (by decide),
    by decide⟩

/-- C4. For a stored user `u` (ids as the store hands them out), a path id that
is cast to the id of `u`, a description that passes the `required` validator
(a string that is not empty, or a number or boolean, stored in its string
form) and a duration that `parseInt` reads as the number `n` (the integer the
digits denote, as a double), the store responding: exactly one exercise is
appended, with `userId` the string form of the id of `u`, `username` that of
`u`, duration `n` and the date of the request (the current UTC date when the
request has no date or a falsy one, the empty string say); the users and the
exercises stored before are unchanged; the answer has status 200 and carries
username, description, duration, the rendered date and the id of `u`, which
is not the id of the new exercise. -/
theorem postExercises_adds_one (rt : Runtime) (env : Env) (s : Store) (path : String)
    (u : User) (description duration date : Value) (d : String) (n : Number)
    (hup : env.storeUp) (hwf : WF s) (hc : rt.castObjectId path = some u._id)
    (hu : u ∈ s.users) (hd : required description = some d)
    (hn : parseInt duration = some n) :
    ∃ e : Exercise,
      (postExercises rt env s path description duration date).1.exercises =
        s.exercises ++ [e] ∧
      (postExercises rt env s path description duration date).1.users = s.users ∧
      e.userId = rt.toHexString u._id ∧ e.username = u.username ∧ e.description = d ∧
      e.duration = n ∧
      (∀ x, date = .string x → x ≠ "" → e.date = x) ∧
      (truthy date = false → e.date = env.today) ∧
      (postExercises rt env s path description duration date).2 =
        { status := 200,
          body := .exercise u.username d n (rt.toDateString e.date) u._id } ∧
      u._id ≠ e._id := by
  have hf := findById_of_nodup hwf.2.2 hu
  rw [postExercises_ok rt env s path description duration date u d n hup hc hf hd hn]
  refine ⟨_, rfl, rfl, rfl, rfl, rfl, rfl, ?_, ?_, rfl, ?_⟩
  · intro x hx hne
    subst hx
    exact dateOrToday_string env hne
  · intro h
    exact dateOrToday_falsy env h
  · exact Nat.ne_of_lt (hwf.1 u hu)

/-- C4 at the store with the one user alice: a run of 30 minutes with no date. -/
theorem postExercises_adds_one_witness :
    WF aliceStore ∧
    postExercises sampleRuntime sampleEnv aliceStore "00000000000000000000000a"
        (.string "run") (.string "30") .undefined =
      ({ users := aliceStore.users,
         exercises :=
           [{ _id := 11, userId := "00000000000000000000000a", username := .string "alice",
              description := "run", duration := .finite 30, date := "2024-05-06" }],
         nextId := 12 },
       { status := 200,
         body := .exercise (.string "alice") "run" (.finite 30) "Date 2024-05-06" 10 }) ∧
    ∃ e : Exercise,
      (postExercises sampleRuntime sampleEnv aliceStore "00000000000000000000000a"
          (.string "run") (.string "30") .undefined).1.exercises = aliceStore.exercises ++ [e] ∧
      e.date = "2024-05-06" ∧ 10 ≠ e._id := by
  obtain ⟨e, h1, _, _, _, _, _, _, h8, _, h10⟩ :=
    postExercises_adds_one sampleRuntime sampleEnv aliceStore "00000000000000000000000a"
      { _id := 10, username := .string "alice" } (.string "run") (.string "30") .undefined
      "run" (.finite 30) storeUp_sampleEnv wf_aliceStore (by decide)
      (List.mem_cons_self _ _) (by decide) (by decide)
  exact ⟨wf_aliceStore, by decide, e, h1, h8 rfl, h10⟩

/-- C5. For every store and every request to the add-exercise route whose path
id resolves to no stored user (it has no cast, or no stored user has the id it
is cast to), the answer is the message `Exercise creation failed!` with status
200 and the store is unchanged. -/
theorem postExercises_unknown_user (rt : Runtime) (env : Env) (s : Store) (path : String)
    (description duration date : Value)
    (hu : ∀ id, rt.castObjectId path = some id → ∀ u ∈ s.users, u._id ≠ id) :
    postExercises rt env s path description duration date =
      (s, { status := 200, body := .message "Exercise creation failed!" }) := by
  unfold postExercises postExercisesTry
  cases hc : rt.castObjectId path with
  | none => rfl
  | some id =>
    have hf := findById_eq_none.2 (hu id hc)
    cases env.fault 0 <;> simp [hf]

/-- C5 at the store with the one user alice, for the id 7. -/
theorem postExercises_unknown_user_witness :
    (∀ id, sampleRuntime.castObjectId "000000000000000000000007" = some id →
      ∀ u ∈ aliceStore.users, u._id ≠ id) ∧
    postExercises sampleRuntime sampleEnv aliceStore "000000000000000000000007"
        (.string "run") (.string "30") .undefined =
      (aliceStore, { status := 200, body := .message "Exercise creation failed!" }) :=
  have h : ∀ id, sampleRuntime.castObjectId "000000000000000000000007" = some id →
      ∀ u ∈ aliceStore.users, u._id ≠ id := by
    intro id hid
    have h7 : sampleRuntime.castObjectId "000000000000000000000007" = some 7 := by decide
    rw [h7] at hid
    cases hid
    decide
  ⟨h, postExercises_unknown_user sampleRuntime sampleEnv aliceStore "000000000000000000000007"
    (.string "run") (.string "30") .undefined h⟩

/-- C6, the claim as stated fails at the handler of `GET /`: when the store
rejects the synchronisation of the indexes, the handler, which has no `catch`,
sends no message object: it sends no answer, or the page if the page had gone
out before. -/
theorem getRoot_failure_no_message :
    attempt sampleRuntime downEnv aliceStore .getRoot = .error aliceStore ∧
    handle sampleRuntime downEnv aliceStore .getRoot = (aliceStore, none) ∧
    handle sampleRuntime lateDownEnv aliceStore .getRoot =
      (aliceStore, some { status := 200, body := .file "/views/index.html" }) :=
  ⟨rfl, rfl, rfl⟩

/-- C6, amended. For every handler other than that of `GET /`: whenever its
guarded part fails, the answer is the object with only the `message` of that
route, with status 200, except on the log route, where the status is 500. No
handler other than that of the log route ever answers with a status other than
200. The failures are exactly these: on the two delete routes, the list route
and the create-user route, a store that rejects the operation; on the
add-exercise route, a path id that resolves to no stored user, a store that
rejects the lookup, a description that fails the validator, a duration that is
not a number, a store that rejects the insertion; on the log route, a path id
that resolves to no stored user, a store that rejects the lookup or the
query. -/
theorem failure_responses (rt : Runtime) (env : Env) (s : Store) (r : Request) :
    (r ≠ .getRoot → ∀ s1, attempt rt env s r = .error s1 →
      (handle rt env s r).2 =
        some { status := if r.isGetLogs then 500 else 200,
               body := .message (catchMessage r) }) ∧
    (r.isGetLogs = false → ∀ resp, (handle rt env s r).2 = some resp → resp.status = 200) ∧
    (r = .getUsersDelete ∨ r = .getExercisesDelete ∨ r = .getUsers ∨ (∃ v, r = .postUsers v) →
      ((∃ s1, attempt rt env s r = .error s1) ↔ env.fault 0 = true)) ∧
    (∀ path a b c, r = .postExercises path a b c →
      ((∃ s1, attempt rt env s r = .error s1) ↔
        (resolve rt s.users path = none ∨ env.fault 0 = true ∨ required a = none ∨
          parseInt b = none ∨ env.fault 1 = true))) ∧
    (∀ path a b c, r = .getLogs path a b c →
      ((∃ s1, attempt rt env s r = .error s1) ↔
        (resolve rt s.users path = none ∨ env.fault 0 = true ∨ env.fault 1 = true))) := by
  refine ⟨?_, ?_, ?_, ?_, ?_⟩
  · intro hr s1 h
    rw [handle_eq_attempt rt env s r hr, h]
  · intro hr resp hresp
    by_cases hroot : r = .getRoot
    · subst hroot
      simp only [handle, getRoot] at hresp
      split at hresp
      · simp only [Option.some.injEq] at hresp
        rw [← hresp]
      · split at hresp
        · simp only [Option.some.injEq] at hresp
          rw [← hresp]
        · simp at hresp
    · rw [handle_eq_attempt rt env s r hroot] at hresp
      split at hresp
      · simp only [Option.some.injEq] at hresp
        rw [← hresp]
      · simp only [hr, Bool.false_eq_true, if_false, Option.some.injEq] at hresp
        rw [← hresp]
  · rintro (rfl | rfl | rfl | ⟨v, rfl⟩)
    · simp only [attempt, getUsersDeleteTry]
      cases env.fault 0 <;> simp
    · simp only [attempt, getExercisesDeleteTry]
      cases env.fault 0 <;> simp
    · simp only [attempt, getUsersTry]
      cases env.fault 0 <;> simp
      split <;> simp
    · simp only [attempt, postUsersTry]
      cases env.fault 0 <;> simp
  · rintro path a b c rfl
    simp only [attempt, postExercisesTry, resolve]
    cases rt.castObjectId path with
    | none => simp
    | some id =>
      simp only [Bool.false_eq_true]
      cases env.fault 0
      · cases findById s.users id with
        | none => simp
        | some u =>
          cases required a with
          | none => simp
          | some d =>
            cases parseInt b with
            | none => simp
            | some n => cases env.fault 1 <;> simp
      · simp
  · rintro path a b c rfl
    simp only [attempt, getLogsTry, resolve]
    cases rt.castObjectId path with
    | none => simp
    | some id =>
      cases env.fault 0
      · cases env.fault 1
        · cases hfu : findById s.users id <;> simp [hfu]
        · simp
      · simp

/-- C7, the claim as stated fails: after a user is created and an exercise is
added with the date `tomorrow`, the stored date is `tomorrow`, which is no ISO
date. -/
theorem stored_date_not_iso :
    Reachable sampleRuntime tomorrowStore ∧
    tomorrowStore.exercises =
      [{ _id := 1, userId := "000000000000000000000000", username := .string "alice",
         description := "run", duration := .finite 30, date := "tomorrow" }] ∧
    isIsoDate "tomorrow" = false :=
  ⟨ReachableBy.step sampleEnv _ (ReachableBy.step sampleEnv _ ReachableBy.empty trivial) trivial,
    by decide, by decide⟩

/-- C7, amended. In every store reachable from the empty store through
requests whose add-exercise date is absent, falsy (the empty string, say) or a
valid ISO date, made while the current UTC date is a valid ISO date, every
stored exercise carries a valid ISO date. -/
theorem stored_dates_iso (rt : Runtime) (s : Store) (h : ReachableBy rt isoRequest s) :
    ∀ e ∈ s.exercises, isIsoDate e.date = true := by
  induction h with
  | empty => intro e he; simp [Store.empty] at he
  | step env r _ hr ih =>
    intro e he
    rcases handle_exercises rt env _ r e he with hmem | ⟨path, a, b, date, rfl, hdate⟩
    · exact ih e hmem
    · rw [hdate]
      obtain ⟨htoday, hd⟩ := hr
      rcases hd with hd | ⟨d, rfl, hd⟩
      · rw [dateOrToday_falsy env hd]; exact htoday
      · rw [dateOrToday_string env (iso_ne_empty hd)]; exact hd

/-- C7, amended, at the store reached by creating a user and adding an
exercise dated 2023-02-01. -/
theorem stored_dates_iso_witness :
    ReachableBy sampleRuntime isoRequest isoStore ∧ isoStore.exercises ≠ [] ∧
    ∀ e ∈ isoStore.exercises, isIsoDate e.date = true :=
  ⟨isoStore_reachable, by decide, stored_dates_iso sampleRuntime isoStore isoStore_reachable⟩

/-- C8, the claim as stated fails: once all users are deleted, the log route
answers a request for the id of a former user with status 500 and the error
message; and once all exercises are deleted, the list route still answers with
the stored users. -/
theorem getLogs_after_getUsersDelete :
    getLogs sampleRuntime sampleEnv (getUsersDelete sampleEnv aliceStore).1
        "00000000000000000000000a" none none none =
      ((getUsersDelete sampleEnv aliceStore).1,
        { status := 500, body := .message "Error getting the user's exercise log." }) ∧
    getUsers sampleEnv (getExercisesDelete sampleEnv aliceStore).1 =
      ((getExercisesDelete sampleEnv aliceStore).1,
        { status := 200, body := .users [{ _id := 10, username := .string "alice" }] }) :=
  ⟨by decide, by decide⟩

/-- C8, amended. The store responding: after the delete-all-users route, the
list route answers with the message that there are no users; after the
delete-all-exercises route, the log route answers a request for a path id that
resolves to a stored user with `count` 0 and an empty `log`, and the list
route answers with status 200 and the stored users or the message that there
are no users. -/
theorem after_delete (rt : Runtime) (env env1 : Env) (s : Store) (hup : env.storeUp)
    (hup1 : env1.storeUp) :
    getUsers env1 (getUsersDelete env s).1 =
      ((getUsersDelete env s).1,
        { status := 200, body := .message "There are no users in the database!" }) ∧
    (∀ path id fromQuery toQuery limitQuery, rt.castObjectId path = some id →
      (∃ u ∈ s.users, u._id = id) →
      ∃ username,
        getLogs rt env1 (getExercisesDelete env s).1 path fromQuery toQuery limitQuery =
          ((getExercisesDelete env s).1,
            { status := 200, body := .log id username 0 [] })) ∧
    (getUsers env1 (getExercisesDelete env s).1).2.status = 200 ∧
    ((getUsers env1 (getExercisesDelete env s).1).2.body = .users s.users ∨
      (getUsers env1 (getExercisesDelete env s).1).2.body =
        .message "There are no users in the database!") := by
  have hdu : (getUsersDelete env s).1 = { s with users := [] } := by
    simp [getUsersDelete, getUsersDeleteTry, hup 0]
  have hde : (getExercisesDelete env s).1 = { s with exercises := [] } := by
    simp [getExercisesDelete, getExercisesDeleteTry, hup 0]
  refine ⟨?_, ?_, ?_, ?_⟩
  · rw [hdu]
    simp [getUsers, getUsersTry, hup1 0]
  · intro path id fromQuery toQuery limitQuery hc hu
    obtain ⟨u, hf⟩ := findById_of_exists hu
    refine ⟨u.username, ?_⟩
    rw [hde, getLogs_ok rt env1 { s with exercises := [] } path id fromQuery toQuery limitQuery
      u hup1 hc hf]
    simp [find, scan]
  · rw [hde]
    simp only [getUsers, getUsersTry, hup1 0]
    by_cases hl : s.users.length = 0 <;> simp [hl]
  · rw [hde]
    simp only [getUsers, getUsersTry, hup1 0]
    by_cases hl : s.users.length = 0 <;> simp [hl]

/-- C8, amended, at the sample store. -/
theorem after_delete_witness :
    getUsers sampleEnv (getUsersDelete sampleEnv sampleStore).1 =
      ((getUsersDelete sampleEnv sampleStore).1,
        { status := 200, body := .message "There are no users in the database!" }) ∧
    ∃ username,
      getLogs sampleRuntime sampleEnv (getExercisesDelete sampleEnv sampleStore).1
          "00000000000000000000000a" none none none =
        ((getExercisesDelete sampleEnv sampleStore).1,
          { status := 200, body := .log 10 username 0 [] }) :=
  ⟨(after_delete sampleRuntime sampleEnv sampleEnv sampleStore storeUp_sampleEnv
      storeUp_sampleEnv).1,
    (after_delete sampleRuntime sampleEnv sampleEnv sampleStore storeUp_sampleEnv
      storeUp_sampleEnv).2.1 "00000000000000000000000a" 10 none none none (by decide)
      ⟨_, List.mem_cons_self _ _, rfl⟩⟩

/-- C9. For every store (ids as the store hands them out) and every username,
the create-user route, the store responding, appends exactly one user with
that username and an id that no stored user has, also when the username is
taken; it leaves the stored users and the exercises unchanged and answers with
the username and the id; the list route then lists that id exactly once. -/
theorem postUsers_fresh (env env1 : Env) (s : Store) (name : String)
    (hup : env.storeUp) (hup1 : env1.storeUp) (hwf : WF s) :
    ∃ id : ObjectId,
      (postUsers env s (.string name)).2 =
        { status := 200, body := .user (.string name) id } ∧
      (postUsers env s (.string name)).1.users =
        s.users ++ [{ _id := id, username := .string name }] ∧
      (postUsers env s (.string name)).1.exercises = s.exercises ∧
      (∀ u ∈ s.users, u._id ≠ id) ∧
      ∃ listed : List User,
        getUsers env1 (postUsers env s (.string name)).1 =
          ((postUsers env s (.string name)).1, { status := 200, body := .users listed }) ∧
        (listed.filter fun u => u._id = id).length = 1 := by
  rw [postUsers_ok env s (.string name) hup]
  refine ⟨s.nextId, rfl, rfl, rfl, fun u hu => Nat.ne_of_lt (hwf.1 u hu), _,
    getUsers_ok env1 _ hup1 (by simp), ?_⟩
  have hnone : (s.users.filter fun u => decide (u._id = s.nextId)) = [] := by
    rw [List.filter_eq_nil_iff]
    intro u hu
    simpa using Nat.ne_of_lt (hwf.1 u hu)
  simp [List.filter_append, hnone]

/-- C9 at the store that already has a user alice: a second alice gets the
id 11. -/
theorem postUsers_fresh_witness :
    WF aliceStore ∧
    (postUsers sampleEnv aliceStore (.string "alice")).2 =
      { status := 200, body := .user (.string "alice") 11 } ∧
    ∃ id : ObjectId,
      (postUsers sampleEnv aliceStore (.string "alice")).1.users =
        aliceStore.users ++ [{ _id := id, username := .string "alice" }] ∧
      ∀ u ∈ aliceStore.users, u._id ≠ id := by
  obtain ⟨id, _, h2, _, h4, _⟩ :=
    postUsers_fresh sampleEnv sampleEnv aliceStore "alice" storeUp_sampleEnv storeUp_sampleEnv
      wf_aliceStore
  exact ⟨wf_aliceStore, by decide, id, h2, h4⟩

/-- C10, the claim as stated fails for a path id that is not written as the
store writes ids: the id of the user alice in upper-case digits is cast to her
id, the add-exercise route stores the exercise under the lower-case string,
and the log route, asked with the same path id for the day of the exercise,
answers with an empty log. -/
theorem add_then_log_other_spelling :
    sampleRuntime.castObjectId "00000000000000000000000A" = some 10 ∧
    (postExercises sampleRuntime sampleEnv aliceStore "00000000000000000000000A"
        (.string "run") (.string "30") (.string "2023-02-01")).2 =
      { status := 200,
        body := .exercise (.string "alice") "run" (.finite 30) "Date 2023-02-01" 10 } ∧
    (getLogs sampleRuntime sampleEnv
        (postExercises sampleRuntime sampleEnv aliceStore "00000000000000000000000A"
          (.string "run") (.string "30") (.string "2023-02-01")).1
        "00000000000000000000000A" (some "2023-02-01") (some "2023-02-01") none).2 =
      { status := 200, body := .log 10 (.string "alice") 0 [] } :=
  ⟨by decide, by decide, by decide⟩

/-- C10, amended. For a path id that resolves to a stored user and is the
string form of the id of that user (the form in which the answers carry
`_id`), a description that passes the validator, a duration that `parseInt`
reads as a number and a valid ISO date `d`, the store responding: after the
add-exercise request, the log route asked with the same path id for
`from = d`, `to = d` and no limit answers with a log that has an entry with
that description, that duration and the date string of the add-exercise
answer, and with the id and the username of that answer. -/
theorem add_then_log (rt : Runtime) (env env1 : Env) (s : Store) (path : String) (id : ObjectId)
    (description duration : Value) (date d : String) (n : Number)
    (hup : env.storeUp) (hup1 : env1.storeUp) (hc : rt.castObjectId path = some id)
    (hu : ∃ u ∈ s.users, u._id = id) (hp : rt.toHexString id = path)
    (hd : required description = some d) (hn : parseInt duration = some n)
    (hdate : isIsoDate date = true) :
    ∃ username rendered count log,
      (postExercises rt env s path description duration (.string date)).2 =
        { status := 200, body := .exercise username d n rendered id } ∧
      (getLogs rt env1 (postExercises rt env s path description duration (.string date)).1 path
          (some date) (some date) none).2 =
        { status := 200, body := .log id username count log } ∧
      ({ description := d, duration := n, date := rendered } : LogEntry) ∈ log := by
  obtain ⟨u, hf⟩ := findById_of_exists hu
  have hid := (findById_some_id hf).2
  subst hid
  have hne := iso_ne_empty hdate
  have hdt : dateOrToday env (.string date) = date := dateOrToday_string env hne
  have hpost := postExercises_ok rt env s path description duration (.string date) u d n hup hc
    hf hd hn
  rw [hdt] at hpost
  have hlog := getLogs_ok rt env1
    (postExercises rt env s path description duration (.string date)).1 path u._id
    (some date) (some date) none u hup1 hc (by rw [hpost]; exact hf)
  rw [orElse_of_some _ hne, orElse_of_some _ hne] at hlog
  refine ⟨u.username, rt.toDateString date, _, _, ?_, congrArg Prod.snd hlog, ?_⟩
  · rw [hpost]
  · rw [hpost, parseIntOrZero_none]
    simp only [find_unlimited, List.mem_map, List.mem_filter]
    refine ⟨_, ⟨List.mem_append_right _ (List.mem_singleton_self _), ?_⟩, ?_⟩
    · rw [matches_iff]
      exact ⟨hp, le_refl _, le_refl _⟩
    · simp [project]

/-- C10, amended, at the store with the one user alice: a run of 30 minutes on
2023-02-01, asked for with the id in lower-case digits. -/
theorem add_then_log_witness :
    sampleRuntime.toHexString 10 = "00000000000000000000000a" ∧
    isIsoDate "2023-02-01" = true ∧
    ∃ username rendered count log,
      (postExercises sampleRuntime sampleEnv aliceStore "00000000000000000000000a"
          (.string "run") (.string "30") (.string "2023-02-01")).2 =
        { status := 200, body := .exercise username "run" (.finite 30) rendered 10 } ∧
      (getLogs sampleRuntime sampleEnv
          (postExercises sampleRuntime sampleEnv aliceStore "00000000000000000000000a"
            (.string "run") (.string "30") (.string "2023-02-01")).1
          "00000000000000000000000a" (some "2023-02-01") (some "2023-02-01") none).2 =
        { status := 200, body := .log 10 username count log } ∧
      ({ description := "run", duration := .finite 30, date := rendered } : LogEntry) ∈ log :=
  ⟨by decide, by decide,
    add_then_log sampleRuntime sampleEnv sampleEnv aliceStore "00000000000000000000000a" 10
      (.string "run") (.string "30") "2023-02-01" "run" (.finite 30)
      storeUp_sampleEnv storeUp_sampleEnv (by decide) ⟨_, List.mem_cons_self _ _, rfl⟩
      (by decide) (by decide) (by decide) (by decide)⟩

end ExerciseTracker
